import Mathlib

/-!
Verification development for the satsim60 spacecraft simulator.

Shallow embedding of the simulator's core logic:
  * the propellant/fuel model of `spacecraftManager.js`
    (`consumeFuel` and the per-thruster firing step of the animation loop);
  * the attitude-control system of `attitudeControl.js`
    (reaction wheels, CMGs, desaturation);
  * the thruster channel auto-binding of `thrusterSetup.js`;
  * the docking state machine, the pause/undock clock of the main module;
  * the configuration-parsing semantics (`parseFloat` combined with the
    nullish-coalescing operator).

JavaScript numbers are modelled as exact rationals (`ℚ`) where the code uses
only field arithmetic, and as real numbers (`ℝ`) where square roots
(vector norms) enter the computation.  Floating-point rounding is abstracted.
-/

/-! ## Fuel model (spacecraftManager.js)

`dryMass`, `fuelMass`, `maxFuelMass` are module-level variables; we gather
them into a record that is threaded explicitly. -/

structure FuelState where
  dryMass : ℚ
  fuelMass : ℚ
  maxFuelMass : ℚ
deriving DecidableEq

/-- Embeds `consumeFuel(amount)`: `fuelMass = Math.max(0, fuelMass - amount)`.
(The subsequent `updateSatelliteMass()` only mirrors `dryMass + fuelMass`
into the physics body and does not change the fuel state.) -/
def consumeFuel (amount : ℚ) (s : FuelState) : FuelState :=
  { s with fuelMass := max 0 (s.fuelMass - amount) }

/-- The per-thruster data consulted by the firing loop in `animate`:
`thrust`, `isp`, and the presentation flag `active`.  `NaN` is not
representable in `ℚ`; the JS truthiness test `!t.thrust` is `thrust = 0`
for rational values. -/
structure FiringThruster where
  thrust : ℚ
  isp : ℚ
  active : Bool
deriving DecidableEq

/-- One per-thruster iteration of the firing loops in `animate`
(spacecraftManager.js lines 1364-1381 and 1389-1406):

* if `fuelMass <= 0` the firing is rejected: no fuel change, thruster
  reported inactive;
* if the thruster data is invalid (`!t.thrust || !t.isp || t.isp <= 0`)
  the thruster is skipped and deactivated;
* otherwise the local force is applied (not modelled here) and
  `consumeFuel((thrust / (isp * 9.81)) * dt)` debits the fuel; if the fuel
  is now exhausted the thruster is deactivated, else marked active. -/
def fireThrusterStep (t : FiringThruster) (dt : ℚ) (s : FuelState) :
    FuelState × FiringThruster :=
  if s.fuelMass ≤ 0 then (s, { t with active := false })
  else if t.thrust = 0 ∨ t.isp = 0 ∨ t.isp ≤ 0 then (s, { t with active := false })
  else
    let fuelConsumptionRate := t.thrust / (t.isp * 9.81)
    let fuelConsumed := fuelConsumptionRate * dt
    let s2 := consumeFuel fuelConsumed s
    if s2.fuelMass ≤ 0 then (s2, { t with active := false })
    else (s2, { t with active := true })

/-- A whole sequence of firing operations (thruster together with the frame
time step), applied in order. -/
def fireSeq : List (FiringThruster × ℚ) → FuelState → FuelState
  | [], s => s
  | (t, dt) :: rest, s => fireSeq rest (fireThrusterStep t dt s).1

/-- Load-time sanitization in `thrusterSetup.js`: `parseFloat` results that
are `NaN` (modelled as `none`) or non-positive are replaced by the default. -/
def sanitizePositive (v : Option ℚ) (dflt : ℚ) : ℚ :=
  match v with
  | none => dflt
  | some x => if x ≤ 0 then dflt else x

theorem sanitizePositive_pos (v : Option ℚ) (dflt : ℚ) (h : 0 < dflt) :
    0 < sanitizePositive v dflt := by
  cases v with
  | none => simpa [sanitizePositive] using h
  | some x =>
    by_cases hx : x ≤ 0 <;> simp [sanitizePositive, hx]
    · exact h
    · linarith

theorem sanitizePositive_pos_witness : 0 < sanitizePositive (some (-3)) 50 :=
  sanitizePositive_pos (some (-3)) 50 (by norm_num)

theorem fireThrusterStep_fuel_le (t : FiringThruster) (dt : ℚ) (s : FuelState)
    (hthrust : 0 ≤ t.thrust) (hdt : 0 ≤ dt) :
    (fireThrusterStep t dt s).1.fuelMass ≤ s.fuelMass := by
  unfold fireThrusterStep
  by_cases h0 : s.fuelMass ≤ 0
  · simp [h0]
  · by_cases hbad : t.thrust = 0 ∨ t.isp = 0 ∨ t.isp ≤ 0
    · simp [h0, hbad]
    · have hisp : 0 < t.isp := by
        push_neg at hbad
        linarith [hbad.2.2]
      have h1 : (0:ℚ) < t.isp * 9.81 := by
        have : (0:ℚ) < 9.81 := by norm_num
        exact mul_pos hisp this
      have hc : 0 ≤ t.thrust / (t.isp * 9.81) * dt :=
        mul_nonneg (div_nonneg hthrust h1.le) hdt
      push_neg at h0
      rw [if_neg (by linarith), if_neg hbad]
      dsimp only [consumeFuel]
      split <;> dsimp only <;>
        (rw [max_le_iff]; constructor <;> linarith)

theorem fireThrusterStep_fuel_nonneg (t : FiringThruster) (dt : ℚ) (s : FuelState)
    (hs : 0 ≤ s.fuelMass) :
    0 ≤ (fireThrusterStep t dt s).1.fuelMass := by
  unfold fireThrusterStep
  split
  · exact hs
  · split
    · exact hs
    · dsimp [consumeFuel]
      split <;> dsimp <;> exact le_max_left 0 _

theorem fireThrusterStep_reject (t : FiringThruster) (dt : ℚ) (s : FuelState)
    (h : s.fuelMass ≤ 0) :
    fireThrusterStep t dt s = (s, { t with active := false }) := by
  unfold fireThrusterStep
  simp [h]

theorem fireSeq_fuel_le (l : List (FiringThruster × ℚ)) (s : FuelState)
    (hl : ∀ p ∈ l, 0 ≤ p.1.thrust ∧ 0 ≤ p.2) :
    (fireSeq l s).fuelMass ≤ s.fuelMass := by
  induction l generalizing s with
  | nil => simp [fireSeq]
  | cons p rest ih =>
    obtain ⟨t, dt⟩ := p
    have h1 := hl (t, dt) (List.mem_cons_self _ _)
    calc (fireSeq rest (fireThrusterStep t dt s).1).fuelMass
        ≤ (fireThrusterStep t dt s).1.fuelMass :=
          ih _ (fun q hq => hl q (List.mem_cons_of_mem _ hq))
      _ ≤ s.fuelMass := fireThrusterStep_fuel_le t dt s h1.1 h1.2

theorem fireSeq_fuel_nonneg (l : List (FiringThruster × ℚ)) (s : FuelState)
    (hs : 0 ≤ s.fuelMass) :
    0 ≤ (fireSeq l s).fuelMass := by
  induction l generalizing s with
  | nil => simpa [fireSeq]
  | cons p rest ih =>
    exact ih _ (fireThrusterStep_fuel_nonneg p.1 p.2 s hs)

/-- Claim C2: for every sequence of thruster firing operations, `fuelMass`
is monotonically non-increasing and never becomes negative; each firing
debits `fuelMass` by `(thrust / (isp * 9.81)) * dt` clamped to a minimum
of 0, and a firing is rejected as a no-op (thruster reported inactive)
when the remaining fuel is `≤ 0`. -/
theorem C2_fuel_monotone_nonnegative (l : List (FiringThruster × ℚ))
    (t : FiringThruster) (dt : ℚ) (s : FuelState)
    (hl : ∀ p ∈ l, 0 ≤ p.1.thrust ∧ 0 ≤ p.2)
    (hthrust : 0 ≤ t.thrust) (hdt : 0 ≤ dt) (hs : 0 ≤ s.fuelMass) :
    ((fireThrusterStep t dt s).1.fuelMass ≤ s.fuelMass ∧
      0 ≤ (fireThrusterStep t dt s).1.fuelMass) ∧
    ((fireSeq l s).fuelMass ≤ s.fuelMass ∧ 0 ≤ (fireSeq l s).fuelMass) ∧
    (s.fuelMass ≤ 0 → fireThrusterStep t dt s = (s, { t with active := false })) :=
  ⟨⟨fireThrusterStep_fuel_le t dt s hthrust hdt,
    fireThrusterStep_fuel_nonneg t dt s hs⟩,
    ⟨fireSeq_fuel_le l s hl, fireSeq_fuel_nonneg l s hs⟩,
    fun h => fireThrusterStep_reject t dt s h⟩

theorem C2_fuel_monotone_nonnegative_witness :
    ((fireThrusterStep ⟨50, 300, false⟩ 1 ⟨5, 5, 5⟩).1.fuelMass ≤ 5 ∧
      0 ≤ (fireThrusterStep ⟨50, 300, false⟩ 1 ⟨5, 5, 5⟩).1.fuelMass) ∧
    ((fireSeq [(⟨50, 300, false⟩, 1)] ⟨5, 5, 5⟩).fuelMass ≤ 5 ∧
      0 ≤ (fireSeq [(⟨50, 300, false⟩, 1)] ⟨5, 5, 5⟩).fuelMass) ∧
    ((5:ℚ) ≤ 0 → fireThrusterStep ⟨50, 300, false⟩ 1 ⟨5, 5, 5⟩ =
      (⟨5, 5, 5⟩, ⟨50, 300, false⟩)) :=
  C2_fuel_monotone_nonnegative [(⟨50, 300, false⟩, 1)] ⟨50, 300, false⟩ 1 ⟨5, 5, 5⟩
    (by decide) (by decide) (by decide) (by decide)

/-! ## Docking state machine and pause/undock clock (spacecraftManager.js)

The docking criteria (`inBox`, `inAngle`, `withinSpeedLimits`,
`withinAngularSpeedLimit`) are computed by `isInDockingZone` from the
vehicle pose; the state machine at the end of `animate` and the keydown
handler consume only these four booleans, so the machine is embedded over
them.  Timestamps (`performance.now()` values, milliseconds) are rationals. -/

structure VQ3 where
  x : ℚ
  y : ℚ
  z : ℚ
deriving DecidableEq

structure Crit where
  inBox : Bool
  inAngle : Bool
  withinSpeedLimits : Bool
  withinAngularSpeedLimit : Bool
deriving DecidableEq

structure SimState where
  isDocked : Bool
  paused : Bool
  canDock : Bool
  hasLeftDockingBoxOnce : Bool
  velocity : VQ3
  angularVelocity : VQ3
  undockTime : Option ℚ
  pausedStartTime : Option ℚ
  accumulatedPausedTime : ℚ
  lastDockedTime : ℚ
deriving DecidableEq

/-- The initial values of the module variables (spacecraftManager.js lines
656-665): docked, paused, latch clear, clock at rest. -/
def initialSimState : SimState :=
  { isDocked := true, paused := true, canDock := false,
    hasLeftDockingBoxOnce := false,
    velocity := ⟨0, 0, 0⟩, angularVelocity := ⟨0, 0, 0⟩,
    undockTime := none, pausedStartTime := none,
    accumulatedPausedTime := 0, lastDockedTime := 0 }

/-- The docking portion of `animate` (lines 1440-1463), run every frame:

* `if (!dockingStatus.inBox) hasLeftDockingBoxOnce = true;`
* the UNDOCKED→DOCKED transition, which requires `canDock`,
  `hasLeftDockingBoxOnce` and all four criteria, zeroes the vehicle
  velocities, pauses, and records `lastDockedTime`;
* `if (!canDock && !dockingStatus.inBox && hasLeftDockingBoxOnce) canDock = true`.

`now` is the `performance.now()` timestamp of the frame.  JavaScript
coerces a `null` `undockTime` to `0` in the subtraction, hence `getD 0`. -/
def dockStep (c : Crit) (now : ℚ) (s : SimState) : SimState :=
  let s1 := { s with hasLeftDockingBoxOnce := s.hasLeftDockingBoxOnce || !c.inBox }
  let s2 :=
    if !s1.isDocked && s1.canDock && s1.hasLeftDockingBoxOnce && c.inBox &&
        c.inAngle && c.withinSpeedLimits && c.withinAngularSpeedLimit then
      let currentTime := match s1.pausedStartTime with
        | some t0 => t0
        | none => now
      { s1 with isDocked := true, paused := true,
                velocity := ⟨0, 0, 0⟩, angularVelocity := ⟨0, 0, 0⟩,
                lastDockedTime := currentTime - s1.undockTime.getD 0 -
                  s1.accumulatedPausedTime }
    else s1
  if !s2.canDock && !c.inBox && s2.hasLeftDockingBoxOnce then
    { s2 with canDock := true }
  else s2

def dockSteps : List Crit → SimState → SimState
  | [], s => s
  | c :: rest, s => dockSteps rest (dockStep c 0 s)

/-- The pause/undock key handler (lines 977-1000, identical for the p and f
keys): if docked and paused the vehicle undocks (records the undock
timestamp, sets the one-shot latch, clears `canDock`, resets the
accumulated paused time); then the pause flag is toggled, accumulating
`now - pausedStartTime` on resume and recording `pausedStartTime` on
pause. -/
def pauseKey (now : ℚ) (s : SimState) : SimState :=
  let s1 :=
    if s.isDocked && s.paused then
      { s with isDocked := false, hasLeftDockingBoxOnce := true,
               canDock := false, undockTime := some now,
               accumulatedPausedTime := 0 }
    else s
  let s2 :=
    if s1.paused then
      match s1.pausedStartTime with
      | some t0 =>
          { s1 with accumulatedPausedTime := s1.accumulatedPausedTime + (now - t0),
                    pausedStartTime := none }
      | none => s1
    else { s1 with pausedStartTime := some now }
  { s2 with paused := !s2.paused }

/-- Embeds `resetSimulation` (lines 1091-1137), restricted to the state modelled
here: zero velocities, docked, paused, latch and `canDock` clear, clock
reset. -/
def resetSimulation (s : SimState) : SimState :=
  { s with velocity := ⟨0, 0, 0⟩, angularVelocity := ⟨0, 0, 0⟩,
           isDocked := true, paused := true, canDock := false,
           hasLeftDockingBoxOnce := false,
           undockTime := none, pausedStartTime := none,
           accumulatedPausedTime := 0 }

/-- Embeds `updateClock` (lines 1170-1221), reduced to the displayed elapsed
value in milliseconds: `0` before the first undock; the frozen
`lastDockedTime` while docked; otherwise `currentTime - undockTime -
accumulatedPausedTime` where `currentTime` is `pausedStartTime` while
paused (with a recorded pause start) and `now` otherwise. -/
def displayedElapsed (now : ℚ) (s : SimState) : ℚ :=
  match s.undockTime with
  | none => 0
  | some u =>
      if s.isDocked then s.lastDockedTime
      else
        let currentTime :=
          match s.paused, s.pausedStartTime with
          | true, some t0 => t0
          | _, _ => now
        currentTime - u - s.accumulatedPausedTime

/-- A sequence of pause/resume cycles: each pair `(a, b)` pauses at
timestamp `a` and resumes at timestamp `b`. -/
def pauseResumeCycles : List (ℚ × ℚ) → SimState → SimState
  | [], s => s
  | (a, b) :: rest, s => pauseResumeCycles rest (pauseKey b (pauseKey a s))

/-- The cycles advance no unpaused time starting from `t`: each pause
happens at the instant the previous cycle resumed. -/
def chainedFrom : ℚ → List (ℚ × ℚ) → Prop
  | _, [] => True
  | t, (a, b) :: rest => a = t ∧ chainedFrom b rest

/-- The final timestamp after the cycles. -/
def cyclesEnd : ℚ → List (ℚ × ℚ) → ℚ
  | t, [] => t
  | _, (_, b) :: rest => cyclesEnd b rest

/-- Counterexample to claim C4: starting from the initial (docked, paused,
latch-clear) state, the DOCKED→UNDOCKED transition of the key handler SETS
`hasLeftDockingBoxOnce` to `true`; it does not clear it. -/
theorem C4_counterexample_undock_sets_latch :
    initialSimState.isDocked = true ∧
    initialSimState.hasLeftDockingBoxOnce = false ∧
    (pauseKey 5 initialSimState).isDocked = false ∧
    (pauseKey 5 initialSimState).hasLeftDockingBoxOnce = true :=
  ⟨rfl, rfl, rfl, rfl⟩

/-- Claim C4, amended: the one-shot latch `hasLeftDockingBoxOnce` is set
whenever the `inBox` criterion is false, and it is also SET (not cleared)
by the DOCKED→UNDOCKED transition of the key handler; it is cleared only
by a full simulation reset; no other embedded operation changes it; and
the UNDOCKED→DOCKED transition is gated on it (together with `canDock`
and the four criteria). -/
theorem C4_latch_amended (s : SimState) (c : Crit) (now : ℚ) :
    (dockStep c now s).hasLeftDockingBoxOnce =
      (s.hasLeftDockingBoxOnce || !c.inBox) ∧
    (pauseKey now s).hasLeftDockingBoxOnce =
      (s.hasLeftDockingBoxOnce || (s.isDocked && s.paused)) ∧
    (resetSimulation s).hasLeftDockingBoxOnce = false ∧
    (dockStep c now s).isDocked =
      (s.isDocked || (s.canDock && (s.hasLeftDockingBoxOnce || !c.inBox) &&
        c.inBox && c.inAngle && c.withinSpeedLimits &&
        c.withinAngularSpeedLimit)) := by
  obtain ⟨d, p, cd, hl, v, av, u, ps, acc, ldt⟩ := s
  obtain ⟨b, a, w, wa⟩ := c
  refine ⟨?_, ?_, rfl, ?_⟩
  · cases d <;> cases cd <;> cases hl <;> cases b <;> cases a <;> cases w <;>
      cases wa <;> rfl
  · cases d <;> cases p <;> cases hl <;> cases ps <;> rfl
  · cases d <;> cases cd <;> cases hl <;> cases b <;> cases a <;> cases w <;>
      cases wa <;> cases ps <;> rfl

theorem dockStep_inBox_no_dock (c : Crit) (s : SimState)
    (hd : s.isDocked = false) (hc : s.canDock = false) (hb : c.inBox = true) :
    (dockStep c 0 s).isDocked = false ∧ (dockStep c 0 s).canDock = false := by
  obtain ⟨d, p, cd, hl, v, av, u, ps, acc, ldt⟩ := s
  obtain ⟨b, a, w, wa⟩ := c
  subst hd; subst hc; subst hb
  cases hl <;> cases a <;> cases w <;> cases wa <;> exact ⟨rfl, rfl⟩

theorem dockSteps_inBox_never_docks (cs : List Crit) (s : SimState)
    (hd : s.isDocked = false) (hc : s.canDock = false)
    (hcs : ∀ c ∈ cs, c.inBox = true) :
    (dockSteps cs s).isDocked = false := by
  induction cs generalizing s with
  | nil => exact hd
  | cons c rest ih =>
    have hcb := hcs c (List.mem_cons_self _ _)
    have h := dockStep_inBox_no_dock c s hd hc hcb
    exact ih _ h.1 h.2 (fun q hq => hcs q (List.mem_cons_of_mem _ hq))

theorem pauseKey_undocks (now : ℚ) (s : SimState)
    (hd : s.isDocked = true) (hp : s.paused = true) :
    (pauseKey now s).isDocked = false ∧ (pauseKey now s).canDock = false ∧
    (pauseKey now s).hasLeftDockingBoxOnce = true := by
  obtain ⟨d, p, cd, hl, v, av, u, ps, acc, ldt⟩ := s
  subst hd; subst hp
  cases ps <;> exact ⟨rfl, rfl, rfl⟩

/-- Claim C5: starting from the DOCKED (paused) state, undocking, taking a
step outside the docking box, and then a step satisfying all four criteria
transitions the state machine back to DOCKED and zeroes the vehicle's
linear and angular velocity; conversely, after undocking the state machine
never reaches DOCKED along a trace in which the vehicle never leaves the
box, even if all four criteria hold at every step. -/
theorem C5_docking_round_trip (s : SimState) (now : ℚ) (c1 c2 : Crit)
    (cs : List Crit)
    (hd : s.isDocked = true) (hp : s.paused = true)
    (h1 : c1.inBox = false)
    (h2 : c2.inBox = true ∧ c2.inAngle = true ∧ c2.withinSpeedLimits = true ∧
      c2.withinAngularSpeedLimit = true)
    (hcs : ∀ c ∈ cs, c.inBox = true) :
    ((dockStep c2 0 (dockStep c1 0 (pauseKey now s))).isDocked = true ∧
     (dockStep c2 0 (dockStep c1 0 (pauseKey now s))).velocity = ⟨0, 0, 0⟩ ∧
     (dockStep c2 0 (dockStep c1 0 (pauseKey now s))).angularVelocity = ⟨0, 0, 0⟩) ∧
    (dockSteps cs (pauseKey now s)).isDocked = false := by
  have hu := pauseKey_undocks now s hd hp
  constructor
  · set s1 := pauseKey now s with hs1
    obtain ⟨b2, a2, w2, wa2⟩ := c2
    obtain ⟨hb2, ha2, hw2, hwa2⟩ := h2
    dsimp at hb2 ha2 hw2 hwa2
    subst hb2; subst ha2; subst hw2; subst hwa2
    obtain ⟨b1, a1, w1, wa1⟩ := c1
    dsimp at h1
    subst h1
    obtain ⟨hdd, hcd, hhl⟩ := hu
    -- after the outside-box step: still undocked, latch set, canDock set
    have hstep : (dockStep ⟨false, a1, w1, wa1⟩ 0 s1).isDocked = false ∧
        (dockStep ⟨false, a1, w1, wa1⟩ 0 s1).canDock = true ∧
        (dockStep ⟨false, a1, w1, wa1⟩ 0 s1).hasLeftDockingBoxOnce = true := by
      obtain ⟨d, p, cd, hl, v, av, u, ps, acc, ldt⟩ := s1
      dsimp at hdd hcd hhl
      subst hdd; subst hcd; subst hhl
      cases a1 <;> cases w1 <;> cases wa1 <;> cases ps <;> exact ⟨rfl, rfl, rfl⟩
    set s2 := dockStep ⟨false, a1, w1, wa1⟩ 0 s1 with hs2
    obtain ⟨h2d, h2c, h2l⟩ := hstep
    obtain ⟨d, p, cd, hl, v, av, u, ps, acc, ldt⟩ := s2
    dsimp at h2d h2c h2l
    subst h2d; subst h2c; subst h2l
    cases ps <;> exact ⟨rfl, rfl, rfl⟩
  · exact dockSteps_inBox_never_docks cs _ hu.1 hu.2.1 hcs

theorem C5_docking_round_trip_witness :
    ((dockStep ⟨true, true, true, true⟩ 0 (dockStep ⟨false, false, false, false⟩ 0
        (pauseKey 3 initialSimState))).isDocked = true ∧
     (dockStep ⟨true, true, true, true⟩ 0 (dockStep ⟨false, false, false, false⟩ 0
        (pauseKey 3 initialSimState))).velocity = ⟨0, 0, 0⟩ ∧
     (dockStep ⟨true, true, true, true⟩ 0 (dockStep ⟨false, false, false, false⟩ 0
        (pauseKey 3 initialSimState))).angularVelocity = ⟨0, 0, 0⟩) ∧
    (dockSteps [⟨true, false, false, false⟩] (pauseKey 3 initialSimState)).isDocked
      = false :=
  C5_docking_round_trip initialSimState 3 ⟨false, false, false, false⟩
    ⟨true, true, true, true⟩ [⟨true, false, false, false⟩] rfl rfl rfl
    ⟨rfl, rfl, rfl, rfl⟩ (by decide)

theorem displayedElapsed_running (now u : ℚ) (s : SimState)
    (hd : s.isDocked = false) (hp : s.paused = false)
    (hu : s.undockTime = some u) :
    displayedElapsed now s = now - u - s.accumulatedPausedTime := by
  simp [displayedElapsed, hd, hp, hu]

theorem pauseKey_of_running (now : ℚ) (s : SimState)
    (hd : s.isDocked = false) (hp : s.paused = false) :
    pauseKey now s =
      { s with paused := true, pausedStartTime := some now } := by
  obtain ⟨d, p, cd, hl, v, av, u, ps, acc, ldt⟩ := s
  dsimp at hd hp
  subst hd; subst hp
  rfl

theorem pauseKey_of_paused (now : ℚ) (s : SimState)
    (hd : s.isDocked = false) (hp : s.paused = true) (t0 : ℚ)
    (hps : s.pausedStartTime = some t0) :
    pauseKey now s =
      { s with paused := false, pausedStartTime := none,
               accumulatedPausedTime := s.accumulatedPausedTime + (now - t0) } := by
  obtain ⟨d, p, cd, hl, v, av, u, ps, acc, ldt⟩ := s
  dsimp at hd hp hps
  subst hd; subst hp; subst hps
  rfl

theorem displayedElapsed_frozen (now t0 u : ℚ) (s : SimState)
    (hd : s.isDocked = false) (hp : s.paused = true)
    (hps : s.pausedStartTime = some t0)
    (hu : s.undockTime = some u) :
    displayedElapsed now s = t0 - u - s.accumulatedPausedTime := by
  simp [displayedElapsed, hd, hp, hps, hu]

theorem pauseKey_cycle (a b : ℚ) (s : SimState)
    (hd : s.isDocked = false) (hp : s.paused = false) :
    pauseKey b (pauseKey a s) =
      { s with pausedStartTime := none,
               accumulatedPausedTime := s.accumulatedPausedTime + (b - a) } := by
  obtain ⟨d, p, cd, hl, v, av, u, ps, acc, ldt⟩ := s
  dsimp at hd hp
  subst hd; subst hp
  rfl

theorem pauseResumeCycles_display_eq (u : ℚ) :
    ∀ (l : List (ℚ × ℚ)) (t : ℚ) (s : SimState),
      s.isDocked = false → s.paused = false → s.pausedStartTime = none →
      s.undockTime = some u → chainedFrom t l →
      displayedElapsed (cyclesEnd t l) (pauseResumeCycles l s) =
        displayedElapsed t s := by
  intro l
  induction l with
  | nil =>
    intro t s hd hp hps hu hch
    rfl
  | cons ab rest ih =>
    obtain ⟨a, b⟩ := ab
    intro t s hd hp hps hu hch
    obtain ⟨hat, hch2⟩ := hch
    subst hat
    have h2 := pauseKey_cycle a b s hd hp
    show displayedElapsed (cyclesEnd b rest)
        (pauseResumeCycles rest (pauseKey b (pauseKey a s))) = _
    rw [h2]
    have hrec := ih b { s with pausedStartTime := none, accumulatedPausedTime := s.accumulatedPausedTime + (b - a) } hd hp rfl hu hch2
    rw [hrec]
    have hrun := displayedElapsed_running b u { s with pausedStartTime := none, accumulatedPausedTime := s.accumulatedPausedTime + (b - a) } hd hp hu
    rw [hrun, displayedElapsed_running a u s hd hp hu]
    dsimp
    ring

/-- Claim C6: the displayed elapsed-since-undock time equals wall time
since undock minus the total time spent paused; pause/resume cycles that
advance no unpaused time leave the displayed elapsed time unchanged; and
while paused the displayed elapsed time freezes at the value computed at
the moment the pause began, independent of the current time. -/
theorem C6_pause_time_invariance (s : SimState) (u now now2 t0 t : ℚ)
    (l : List (ℚ × ℚ))
    (hd : s.isDocked = false) (hp : s.paused = false)
    (hps : s.pausedStartTime = none) (hu : s.undockTime = some u)
    (hch : chainedFrom t l) :
    displayedElapsed now s = now - u - s.accumulatedPausedTime ∧
    displayedElapsed now2 (pauseKey t0 s) = displayedElapsed t0 s ∧
    displayedElapsed (cyclesEnd t l) (pauseResumeCycles l s) =
      displayedElapsed t s := by
  refine ⟨displayedElapsed_running now u s hd hp hu, ?_,
    pauseResumeCycles_display_eq u l t s hd hp hps hu hch⟩
  rw [pauseKey_of_running t0 s hd hp]
  have hfr := displayedElapsed_frozen now2 t0 u { s with paused := true, pausedStartTime := some t0 } hd rfl rfl hu
  rw [hfr, displayedElapsed_running t0 u s hd hp hu]

theorem C6_pause_time_invariance_witness :
    displayedElapsed 10 (pauseKey 0 initialSimState) =
      10 - 0 - (pauseKey 0 initialSimState).accumulatedPausedTime ∧
    displayedElapsed 42 (pauseKey 7 (pauseKey 0 initialSimState)) =
      displayedElapsed 7 (pauseKey 0 initialSimState) ∧
    displayedElapsed (cyclesEnd 7 [(7, 9), (9, 20)])
        (pauseResumeCycles [(7, 9), (9, 20)] (pauseKey 0 initialSimState)) =
      displayedElapsed 7 (pauseKey 0 initialSimState) :=
  C6_pause_time_invariance (pauseKey 0 initialSimState) 0 10 42 7 7
    [(7, 9), (9, 20)] rfl rfl rfl rfl (by exact ⟨rfl, rfl, trivial⟩)

/-! ## Vectors (CANNON.Vec3 over ℝ)

Real numbers are used because `length()` (a square root) feeds back into
the attitude-control state. -/

structure Vec3 where
  x : ℝ
  y : ℝ
  z : ℝ

def Vec3.add (v w : Vec3) : Vec3 := ⟨v.x + w.x, v.y + w.y, v.z + w.z⟩

def Vec3.sub (v w : Vec3) : Vec3 := ⟨v.x - w.x, v.y - w.y, v.z - w.z⟩

def Vec3.scale (v : Vec3) (c : ℝ) : Vec3 := ⟨v.x * c, v.y * c, v.z * c⟩

def Vec3.dot (v w : Vec3) : ℝ := v.x * w.x + v.y * w.y + v.z * w.z

def Vec3.cross (v w : Vec3) : Vec3 :=
  ⟨v.y * w.z - v.z * w.y, v.z * w.x - v.x * w.z, v.x * w.y - v.y * w.x⟩

noncomputable def Vec3.len (v : Vec3) : ℝ :=
  Real.sqrt (v.x * v.x + v.y * v.y + v.z * v.z)

/-- Embeds `Vec3.unit()` of cannon-es: scale by the inverse norm when the norm is
positive, else the fallback `(1, 0, 0)`. -/
noncomputable def Vec3.unit (v : Vec3) : Vec3 :=
  if 0 < v.len then v.scale (1 / v.len) else ⟨1, 0, 0⟩

/-! ## Attitude control system (attitudeControl.js) -/

/-- The fixed momentum-integration timestep `dt = 1/60` used by
`applyReactionWheelControl`, `applyCMGControl`. -/
noncomputable def controlDt : ℝ := 1 / 60

structure ReactionWheel where
  orientation : Vec3
  position : Vec3
  maxAngularMomentum : ℝ
  maxTorque : ℝ
  currentAngularMomentum : ℝ

structure CMG where
  maxAngularMomentum : ℝ
  maxTorque : ℝ
  currentAngularMomentum : Vec3

inductive ControlMode
  | thrusters
  | reactionwheels
  | cmgs
deriving DecidableEq

structure AttitudeControlState where
  mode : ControlMode
  reactionWheels : List ReactionWheel
  cmgs : List CMG
  desaturationActive : Bool

/-- The per-wheel body of `applyReactionWheelControl` (attitudeControl.js
lines 176-207).  Returns the updated wheel together with the reaction
torque delivered to the vehicle in the vehicle-local frame (the code then
rotates this vector to world frame by the body quaternion, which does not
change the wheel state). -/
noncomputable def applyReactionWheelControlWheel (torque : Vec3) (w : ReactionWheel) :
    ReactionWheel × Vec3 :=
  let wheelAxis := w.orientation
  let requestedTorqueAlongWheel := wheelAxis.dot torque
  let actualTorqueApplied :=
    if 0 < requestedTorqueAlongWheel then
      let momentumCapacity := w.maxAngularMomentum - w.currentAngularMomentum
      let maxPossibleTorque := momentumCapacity / controlDt
      min requestedTorqueAlongWheel maxPossibleTorque
    else if requestedTorqueAlongWheel < 0 then
      let momentumCapacity := w.currentAngularMomentum - (-w.maxAngularMomentum)
      let maxPossibleTorque := momentumCapacity / controlDt
      max requestedTorqueAlongWheel (-maxPossibleTorque)
    else 0
  let deltaMomentum := actualTorqueApplied * controlDt
  ({ w with currentAngularMomentum := w.currentAngularMomentum + deltaMomentum },
   wheelAxis.scale (-actualTorqueApplied))

/-- The per-CMG body of `applyCMGControl` (lines 218-256): the requested
torque is scaled down when the dot product of the stored momentum with the
prospective momentum delta is positive AND the momentum magnitude is
already at or above `maxAngularMomentum`; independently the torque
magnitude is clamped to `maxTorque`; the momentum integrates the negative
of the applied torque. -/
noncomputable def applyCMGControlStep (torque : Vec3) (cmg : CMG) : CMG × Vec3 :=
  let currentMomentumMag := cmg.currentAngularMomentum.len
  let actualTorque0 : Vec3 := ⟨torque.x, torque.y, torque.z⟩
  let desiredDeltaMomentum := actualTorque0.scale (controlDt * (-1))
  let dotProduct := cmg.currentAngularMomentum.dot desiredDeltaMomentum
  let actualTorque1 :=
    if 0 < dotProduct ∧ cmg.maxAngularMomentum ≤ currentMomentumMag then
      let availableMomentum := cmg.maxAngularMomentum - currentMomentumMag
      let scaleFactor := availableMomentum / dotProduct
      actualTorque0.scale scaleFactor
    else actualTorque0
  let actualTorqueMag := actualTorque1.len
  let actualTorque2 :=
    if cmg.maxTorque < actualTorqueMag then
      actualTorque1.scale (cmg.maxTorque / actualTorqueMag)
    else actualTorque1
  let deltaMomentum := actualTorque2.scale (controlDt * (-1))
  ({ cmg with currentAngularMomentum := cmg.currentAngularMomentum.add deltaMomentum },
   actualTorque2)

noncomputable def applyCMGControl (torque : Vec3) (cmgs : List CMG) : List CMG :=
  cmgs.map (fun c => (applyCMGControlStep torque c).1)

/-- Embeds `applyControlTorque`: dispatches on the mode; in thrusters mode it does
nothing. -/
noncomputable def applyControlTorque (torque : Vec3) (a : AttitudeControlState) :
    AttitudeControlState :=
  match a.mode with
  | .reactionwheels =>
      { a with reactionWheels :=
          a.reactionWheels.map (fun w => (applyReactionWheelControlWheel torque w).1) }
  | .cmgs => { a with cmgs := applyCMGControl torque a.cmgs }
  | .thrusters => a

/-- The thruster data consumed by `desaturateWithThrusters`. -/
structure DesatThruster where
  pos : Vec3
  dir : Vec3
  thrust : ℝ

/-- The inner wheel update of the reaction-wheel desaturation branch
(lines 280-287): subtract the length of `orientation.scale(alignment * 0.01)`
from the stored scalar momentum and clamp to
`[-maxAngularMomentum, maxAngularMomentum]`. -/
noncomputable def desatReduceWheel (alignment : ℝ) (w : ReactionWheel) : ReactionWheel :=
  let reduction := w.orientation.scale (alignment * 0.01)
  let newMomentum := w.currentAngularMomentum - reduction.len
  let clamped := max (-w.maxAngularMomentum) (min w.maxAngularMomentum newMomentum)
  { w with currentAngularMomentum := clamped }

/-- One thruster pass of the reaction-wheel desaturation branch: thrusters
whose torque direction aligns (dot product above `0.5`) with the opposing
direction fire (force application not modelled) and bleed every wheel. -/
noncomputable def desatRWThrusterPass (thrustDirection : Vec3)
    (ws : List ReactionWheel) (t : DesatThruster) : List ReactionWheel :=
  let torqueDirection := t.pos.cross t.dir
  let alignment := torqueDirection.dot thrustDirection
  if 0.5 < alignment then ws.map (desatReduceWheel alignment) else ws

noncomputable def rwTotalMomentum (ws : List ReactionWheel) : Vec3 :=
  ws.foldl (fun acc w => acc.add (w.orientation.scale w.currentAngularMomentum)) ⟨0, 0, 0⟩

/-- The reaction-wheel branch of `desaturateWithThrusters`
(lines 260-299).  Returns the updated wheels and the resulting
`desaturationActive` flag (the code sets the flag `true` on entry and
clears it at the end when the peak wheel momentum magnitude is below
`0.5`). -/
noncomputable def desaturateRW (thrusters : List DesatThruster)
    (ws : List ReactionWheel) : List ReactionWheel × Bool :=
  let totalMomentum := rwTotalMomentum ws
  let ws2 :=
    if 0.1 < totalMomentum.len then
      let thrustDirection := totalMomentum.unit.scale (-1)
      thrusters.foldl (desatRWThrusterPass thrustDirection) ws
    else ws
  let maxMomentum : ℝ := ws2.foldl (fun m w => max m |w.currentAngularMomentum|) 0
  (ws2, if maxMomentum < 0.5 then false else true)

noncomputable def cmgTotalMomentum (cs : List CMG) : Vec3 :=
  cs.foldl (fun acc c => acc.add c.currentAngularMomentum) ⟨0, 0, 0⟩

/-- One thruster pass of the CMG desaturation branch (lines 315-330). -/
noncomputable def desatCMGThrusterPass (momentumDir : Vec3) (cs : List CMG)
    (t : DesatThruster) : List CMG :=
  let torqueDirection := t.pos.cross t.dir
  let alignment := torqueDirection.dot momentumDir
  if 0.5 < alignment then
    cs.map (fun c =>
      { c with currentAngularMomentum :=
          c.currentAngularMomentum.sub (momentumDir.scale 0.02) })
  else cs

/-- The CMG branch of `desaturateWithThrusters` (lines 300-342). -/
noncomputable def desaturateCMG (thrusters : List DesatThruster) (cs : List CMG) :
    List CMG × Bool :=
  let totalMomentum := cmgTotalMomentum cs
  let cs2 :=
    if 10 < totalMomentum.len then
      let momentumDir := totalMomentum.unit.scale (-1)
      thrusters.foldl (desatCMGThrusterPass momentumDir) cs
    else cs
  let total2 := cmgTotalMomentum cs2
  (cs2, if total2.len < 5 then false else true)

noncomputable def desaturateWithThrusters (thrusters : List DesatThruster)
    (a : AttitudeControlState) : AttitudeControlState :=
  match a.mode with
  | .reactionwheels =>
      let r := desaturateRW thrusters a.reactionWheels
      { a with reactionWheels := r.1, desaturationActive := r.2 }
  | .cmgs =>
      let r := desaturateCMG thrusters a.cmgs
      { a with cmgs := r.1, desaturationActive := r.2 }
  | .thrusters => a

/-- Iterated desaturation calls on a reaction-wheel bank, as performed by
`animate` while `desaturationActive` holds. -/
noncomputable def desatWheelsIter (ths : List DesatThruster)
    (ws : List ReactionWheel) : ℕ → List ReactionWheel
  | 0 => ws
  | n + 1 => (desaturateRW ths (desatWheelsIter ths ws n)).1

/-- Iterated reaction-wheel control with a fixed requested torque. -/
noncomputable def iterateRWControl (torque : Vec3) (w : ReactionWheel) :
    ℕ → ReactionWheel
  | 0 => w
  | n + 1 => (applyReactionWheelControlWheel torque (iterateRWControl torque w n)).1

theorem Vec3.len_nonneg (v : Vec3) : 0 ≤ v.len :=
  Real.sqrt_nonneg _

theorem Vec3.len_scale (v : Vec3) (c : ℝ) : (v.scale c).len = |c| * v.len := by
  unfold Vec3.len Vec3.scale
  dsimp only
  have h : v.x * c * (v.x * c) + v.y * c * (v.y * c) + v.z * c * (v.z * c) =
      c ^ 2 * (v.x * v.x + v.y * v.y + v.z * v.z) := by ring
  rw [h, Real.sqrt_mul (sq_nonneg c), Real.sqrt_sq_eq_abs]

theorem Vec3.len_single_z (t : ℝ) : (⟨0, 0, t⟩ : Vec3).len = |t| := by
  unfold Vec3.len
  dsimp only
  rw [show (0 * 0 + 0 * 0 + t * t : ℝ) = t ^ 2 by ring, Real.sqrt_sq_eq_abs]

theorem Vec3.len_single_x (t : ℝ) : (⟨t, 0, 0⟩ : Vec3).len = |t| := by
  unfold Vec3.len
  dsimp only
  rw [show (t * t + 0 * 0 + 0 * 0 : ℝ) = t ^ 2 by ring, Real.sqrt_sq_eq_abs]

theorem controlDt_pos : 0 < controlDt := by
  unfold controlDt
  norm_num

theorem applyRWWheel_shape (tq : Vec3) (w : ReactionWheel) :
    ((applyReactionWheelControlWheel tq w).1).orientation = w.orientation ∧
    ((applyReactionWheelControlWheel tq w).1).maxAngularMomentum =
      w.maxAngularMomentum := ⟨rfl, rfl⟩

theorem applyRWWheel_bounded (tq : Vec3) (w : ReactionWheel)
    (hw : |w.currentAngularMomentum| ≤ w.maxAngularMomentum) :
    |((applyReactionWheelControlWheel tq w).1).currentAngularMomentum| ≤
      w.maxAngularMomentum := by
  rw [abs_le] at hw ⊢
  obtain ⟨hl, hr⟩ := hw
  have hdt := controlDt_pos
  simp only [applyReactionWheelControlWheel]
  split_ifs with h1 h2
  · constructor
    · have h3 : 0 ≤ min (w.orientation.dot tq)
          ((w.maxAngularMomentum - w.currentAngularMomentum) / controlDt) :=
        le_min h1.le (div_nonneg (by linarith) hdt.le)
      nlinarith [mul_nonneg h3 hdt.le]
    · have h3 : min (w.orientation.dot tq)
            ((w.maxAngularMomentum - w.currentAngularMomentum) / controlDt) * controlDt ≤
          (w.maxAngularMomentum - w.currentAngularMomentum) / controlDt * controlDt :=
        mul_le_mul_of_nonneg_right (min_le_right _ _) hdt.le
      rw [div_mul_cancel₀ _ hdt.ne'] at h3
      linarith
  · constructor
    · have h3 : -((w.currentAngularMomentum - -w.maxAngularMomentum) / controlDt) * controlDt ≤
          max (w.orientation.dot tq)
            (-((w.currentAngularMomentum - -w.maxAngularMomentum) / controlDt)) * controlDt :=
        mul_le_mul_of_nonneg_right (le_max_right _ _) hdt.le
      rw [neg_mul, div_mul_cancel₀ _ hdt.ne'] at h3
      linarith
    · have h3 : max (w.orientation.dot tq)
          (-((w.currentAngularMomentum - -w.maxAngularMomentum) / controlDt)) ≤ 0 :=
        max_le h2.le (neg_nonpos.mpr (div_nonneg (by linarith) hdt.le))
      nlinarith [mul_nonpos_of_nonpos_of_nonneg h3 hdt.le]
  · constructor <;> nlinarith

theorem desatReduceWheel_shape (al : ℝ) (w : ReactionWheel) :
    (desatReduceWheel al w).orientation = w.orientation ∧
    (desatReduceWheel al w).maxAngularMomentum = w.maxAngularMomentum := ⟨rfl, rfl⟩

theorem desatReduceWheel_bounded (al : ℝ) (w : ReactionWheel)
    (hM : 0 ≤ w.maxAngularMomentum) :
    |(desatReduceWheel al w).currentAngularMomentum| ≤
      (desatReduceWheel al w).maxAngularMomentum := by
  simp only [desatReduceWheel]
  rw [abs_le]
  exact ⟨le_max_left _ _, max_le (by linarith) (min_le_left _ _)⟩

theorem desatRWThrusterPass_bounded (td : Vec3) (ws : List ReactionWheel)
    (t : DesatThruster)
    (h : ∀ w ∈ ws, |w.currentAngularMomentum| ≤ w.maxAngularMomentum) :
    ∀ w2 ∈ desatRWThrusterPass td ws t,
      |w2.currentAngularMomentum| ≤ w2.maxAngularMomentum := by
  intro w2 hw2
  simp only [desatRWThrusterPass] at hw2
  split at hw2
  · rw [List.mem_map] at hw2
    obtain ⟨w, hw, rfl⟩ := hw2
    have hM : 0 ≤ w.maxAngularMomentum := (abs_nonneg _).trans (h w hw)
    have hb := desatReduceWheel_bounded ((t.pos.cross t.dir).dot td) w hM
    rwa [(desatReduceWheel_shape ((t.pos.cross t.dir).dot td) w).2] at hb
  · exact h w2 hw2

theorem desatRW_fold_bounded (td : Vec3) (ths : List DesatThruster)
    (ws : List ReactionWheel)
    (h : ∀ w ∈ ws, |w.currentAngularMomentum| ≤ w.maxAngularMomentum) :
    ∀ w2 ∈ ths.foldl (desatRWThrusterPass td) ws,
      |w2.currentAngularMomentum| ≤ w2.maxAngularMomentum := by
  induction ths generalizing ws with
  | nil => exact h
  | cons t rest ih => exact ih _ (desatRWThrusterPass_bounded td ws t h)

theorem desaturateRW_bounded (ths : List DesatThruster) (ws : List ReactionWheel)
    (h : ∀ w ∈ ws, |w.currentAngularMomentum| ≤ w.maxAngularMomentum) :
    ∀ w2 ∈ (desaturateRW ths ws).1,
      |w2.currentAngularMomentum| ≤ w2.maxAngularMomentum := by
  simp only [desaturateRW]
  split
  · exact desatRW_fold_bounded _ ths ws h
  · exact h

theorem applyRWWheel_pos_step (tq : Vec3) (w : ReactionWheel)
    (hr : 0 < w.orientation.dot tq) :
    ((applyReactionWheelControlWheel tq w).1).currentAngularMomentum =
      min (w.currentAngularMomentum + w.orientation.dot tq * controlDt)
        w.maxAngularMomentum := by
  have hdt := controlDt_pos
  simp only [applyReactionWheelControlWheel]
  rw [if_pos hr]
  rw [min_mul_of_nonneg _ _ hdt.le, div_mul_cancel₀ _ hdt.ne']
  rw [min_add_add_left w.currentAngularMomentum (w.orientation.dot tq * controlDt)
    (w.maxAngularMomentum - w.currentAngularMomentum) |>.symm]
  congr 1
  ring

theorem iterateRWControl_closed (tq : Vec3) (w : ReactionWheel)
    (hr : 0 < w.orientation.dot tq)
    (hcM : w.currentAngularMomentum ≤ w.maxAngularMomentum) (n : ℕ) :
    (iterateRWControl tq w n).currentAngularMomentum =
      min (w.currentAngularMomentum + n * (w.orientation.dot tq * controlDt))
        w.maxAngularMomentum ∧
    (iterateRWControl tq w n).orientation = w.orientation ∧
    (iterateRWControl tq w n).maxAngularMomentum = w.maxAngularMomentum := by
  have hrdt : 0 ≤ w.orientation.dot tq * controlDt :=
    mul_nonneg hr.le controlDt_pos.le
  induction n with
  | zero =>
    refine ⟨?_, rfl, rfl⟩
    show w.currentAngularMomentum = _
    rw [Nat.cast_zero, zero_mul, add_zero, min_eq_left hcM]
  | succ n ih =>
    obtain ⟨ihc, iho, ihM⟩ := ih
    have hr2 : 0 < (iterateRWControl tq w n).orientation.dot tq := by
      rw [iho]; exact hr
    have step := applyRWWheel_pos_step tq (iterateRWControl tq w n) hr2
    refine ⟨?_, ?_, ?_⟩
    · show ((applyReactionWheelControlWheel tq (iterateRWControl tq w n)).1).currentAngularMomentum = _
      rw [step, ihc, iho, ihM]
      rw [← min_add_add_right, min_assoc,
        min_eq_right (le_add_of_nonneg_right hrdt)]
      congr 1
      push_cast
      ring
    · show ((applyReactionWheelControlWheel tq (iterateRWControl tq w n)).1).orientation = _
      rw [(applyRWWheel_shape tq (iterateRWControl tq w n)).1, iho]
    · show ((applyReactionWheelControlWheel tq (iterateRWControl tq w n)).1).maxAngularMomentum = _
      rw [(applyRWWheel_shape tq (iterateRWControl tq w n)).2, ihM]

/-- Claim C3: every reaction wheel's stored momentum stays within
`[-maxAngularMomentum, +maxAngularMomentum]` under every control and
desaturation operation, and repeatedly requesting torque in one fixed
direction (positive component along the wheel axis) drives the momentum
monotonically to the saturation value `maxAngularMomentum` (reached once
enough steps have accumulated) and never beyond it. -/
theorem C3_wheel_momentum_saturation (a : AttitudeControlState)
    (torque tq2 : Vec3) (ths : List DesatThruster) (w : ReactionWheel) (n m : ℕ)
    (ha : ∀ w2 ∈ a.reactionWheels,
      |w2.currentAngularMomentum| ≤ w2.maxAngularMomentum)
    (hr : 0 < w.orientation.dot tq2)
    (hcM : w.currentAngularMomentum ≤ w.maxAngularMomentum)
    (hm : w.maxAngularMomentum ≤
      w.currentAngularMomentum + m * (w.orientation.dot tq2 * controlDt)) :
    (∀ w2 ∈ (applyControlTorque torque a).reactionWheels,
        |w2.currentAngularMomentum| ≤ w2.maxAngularMomentum) ∧
    (∀ w2 ∈ (desaturateWithThrusters ths a).reactionWheels,
        |w2.currentAngularMomentum| ≤ w2.maxAngularMomentum) ∧
    ((iterateRWControl tq2 w n).currentAngularMomentum =
        min (w.currentAngularMomentum + n * (w.orientation.dot tq2 * controlDt))
          w.maxAngularMomentum) ∧
    ((iterateRWControl tq2 w n).currentAngularMomentum ≤
        (iterateRWControl tq2 w (n + 1)).currentAngularMomentum) ∧
    ((iterateRWControl tq2 w n).currentAngularMomentum ≤ w.maxAngularMomentum) ∧
    ((iterateRWControl tq2 w m).currentAngularMomentum = w.maxAngularMomentum) := by
  have hrdt : 0 ≤ w.orientation.dot tq2 * controlDt :=
    mul_nonneg hr.le controlDt_pos.le
  have hctrl : ∀ w2 ∈ (applyControlTorque torque a).reactionWheels,
      |w2.currentAngularMomentum| ≤ w2.maxAngularMomentum := by
    intro w2 hw2
    unfold applyControlTorque at hw2
    cases hmode : a.mode <;> rw [hmode] at hw2
    · exact ha w2 hw2
    · dsimp at hw2
      rw [List.mem_map] at hw2
      obtain ⟨w0, hw0, rfl⟩ := hw2
      have hb := applyRWWheel_bounded torque w0 (ha w0 hw0)
      rwa [(applyRWWheel_shape torque w0).2.symm] at hb
    · exact ha w2 hw2
  have hdesat : ∀ w2 ∈ (desaturateWithThrusters ths a).reactionWheels,
      |w2.currentAngularMomentum| ≤ w2.maxAngularMomentum := by
    intro w2 hw2
    unfold desaturateWithThrusters at hw2
    cases hmode : a.mode <;> rw [hmode] at hw2
    · exact ha w2 hw2
    · exact desaturateRW_bounded ths a.reactionWheels ha w2 hw2
    · exact ha w2 hw2
  obtain ⟨hcn, -, hMn⟩ := iterateRWControl_closed tq2 w hr hcM n
  obtain ⟨hcn1, -, -⟩ := iterateRWControl_closed tq2 w hr hcM (n + 1)
  obtain ⟨hcm, -, -⟩ := iterateRWControl_closed tq2 w hr hcM m
  refine ⟨hctrl, hdesat, hcn, ?_, ?_, ?_⟩
  · rw [hcn, hcn1]
    refine min_le_min (by push_cast; nlinarith) le_rfl
  · rw [hcn]
    exact min_le_right _ _
  · rw [hcm]
    exact min_eq_right (by linarith)

theorem C3_wheel_momentum_saturation_witness :
    (∀ w2 ∈ (applyControlTorque ⟨0, 0, 30⟩
        ⟨ControlMode.reactionwheels, [⟨⟨0, 0, 1⟩, ⟨0, 0, 0⟩, 10, 0.5, 0⟩], [], false⟩).reactionWheels,
        |w2.currentAngularMomentum| ≤ w2.maxAngularMomentum) ∧
    (∀ w2 ∈ (desaturateWithThrusters []
        ⟨ControlMode.reactionwheels, [⟨⟨0, 0, 1⟩, ⟨0, 0, 0⟩, 10, 0.5, 0⟩], [], false⟩).reactionWheels,
        |w2.currentAngularMomentum| ≤ w2.maxAngularMomentum) ∧
    ((iterateRWControl ⟨0, 0, 30⟩ ⟨⟨0, 0, 1⟩, ⟨0, 0, 0⟩, 10, 0.5, 0⟩ 2).currentAngularMomentum =
        min ((0:ℝ) + (2:ℕ) * (Vec3.dot ⟨0, 0, 1⟩ ⟨0, 0, 30⟩ * controlDt)) 10) ∧
    ((iterateRWControl ⟨0, 0, 30⟩ ⟨⟨0, 0, 1⟩, ⟨0, 0, 0⟩, 10, 0.5, 0⟩ 2).currentAngularMomentum ≤
        (iterateRWControl ⟨0, 0, 30⟩ ⟨⟨0, 0, 1⟩, ⟨0, 0, 0⟩, 10, 0.5, 0⟩ 3).currentAngularMomentum) ∧
    ((iterateRWControl ⟨0, 0, 30⟩ ⟨⟨0, 0, 1⟩, ⟨0, 0, 0⟩, 10, 0.5, 0⟩ 2).currentAngularMomentum ≤ 10) ∧
    ((iterateRWControl ⟨0, 0, 30⟩ ⟨⟨0, 0, 1⟩, ⟨0, 0, 0⟩, 10, 0.5, 0⟩ 20).currentAngularMomentum = 10) :=
  C3_wheel_momentum_saturation
    ⟨ControlMode.reactionwheels, [⟨⟨0, 0, 1⟩, ⟨0, 0, 0⟩, 10, 0.5, 0⟩], [], false⟩
    ⟨0, 0, 30⟩ ⟨0, 0, 30⟩ [] ⟨⟨0, 0, 1⟩, ⟨0, 0, 0⟩, 10, 0.5, 0⟩ 2 20
    (by intro w2 hw2; simp at hw2; subst hw2; norm_num)
    (by norm_num [Vec3.dot])
    (by norm_num)
    (by norm_num [Vec3.dot, controlDt])

/-- A CMG with momentum capacity 1 and torque limit 120, at its initial
(zero) momentum state. -/
noncomputable def overshootCMG : CMG := ⟨1, 120, ⟨0, 0, 0⟩⟩

/-- Claim C1 is violated by the code: the guard in `applyCMGControl` only
scales the torque down when the stored momentum magnitude is ALREADY at or
above `maxAngularMomentum`, so a single `applyControlTorque` call in CMGS
mode starting from zero momentum (dot product 0, torque within
`maxTorque`) carries the momentum magnitude to 2, beyond the capacity
1. -/
theorem C1_cmg_momentum_exceeds_capacity :
    ((applyCMGControlStep ⟨120, 0, 0⟩ overshootCMG).1).currentAngularMomentum.len = 2 ∧
    overshootCMG.maxAngularMomentum <
      ((applyCMGControlStep ⟨120, 0, 0⟩ overshootCMG).1).currentAngularMomentum.len ∧
    applyCMGControl ⟨120, 0, 0⟩ [overshootCMG] =
      [(applyCMGControlStep ⟨120, 0, 0⟩ overshootCMG).1] := by
  have hlen0 : (Vec3.len ⟨0, 0, 0⟩ : ℝ) = 0 := by
    rw [Vec3.len_single_z, abs_zero]
  have hdot : Vec3.dot ⟨0, 0, 0⟩ (Vec3.scale ⟨120, 0, 0⟩ (controlDt * (-1))) = 0 := by
    simp [Vec3.dot, Vec3.scale]
  have hlen120 : (Vec3.len ⟨120, 0, 0⟩ : ℝ) = 120 := by
    rw [Vec3.len_single_x]
    norm_num
  have hstep : (applyCMGControlStep ⟨120, 0, 0⟩ overshootCMG).1.currentAngularMomentum =
      Vec3.add ⟨0, 0, 0⟩ (Vec3.scale ⟨120, 0, 0⟩ (controlDt * (-1))) := by
    have h1 : ¬(0 < Vec3.dot ⟨0, 0, 0⟩ (Vec3.scale ⟨120, 0, 0⟩ (controlDt * (-1))) ∧
        (1:ℝ) ≤ Vec3.len ⟨0, 0, 0⟩) := by
      rw [hdot, hlen0]
      norm_num
    have h2 : ¬((120:ℝ) < Vec3.len ⟨120, 0, 0⟩) := by
      rw [hlen120]
      norm_num
    simp only [applyCMGControlStep, overshootCMG]
    rw [if_neg h1, if_neg h2]
  have hv : Vec3.add ⟨0, 0, 0⟩ (Vec3.scale ⟨120, 0, 0⟩ (controlDt * (-1))) =
      (⟨-2, 0, 0⟩ : Vec3) := by
    simp only [Vec3.add, Vec3.scale, controlDt]
    norm_num
  have hlen : ((applyCMGControlStep ⟨120, 0, 0⟩ overshootCMG).1).currentAngularMomentum.len = 2 := by
    rw [hstep, hv, Vec3.len_single_x]
    norm_num
  refine ⟨hlen, ?_, ?_⟩
  · rw [hlen]
    show (1:ℝ) < 2
    norm_num
  · simp [applyCMGControl]

/-- Two wheels on the same spin axis holding opposite momenta `0.55` and
`-0.45`: peak magnitude `0.55`, above the deactivation threshold `0.5`,
while the total momentum is only `0.1`. -/
noncomputable def stuckWheels : List ReactionWheel :=
  [⟨⟨0, 0, 1⟩, ⟨0, 0, 0⟩, 10, 0.5, 0.55⟩,
   ⟨⟨0, 0, 1⟩, ⟨0, 0, 0⟩, 10, 0.5, -0.45⟩]

/-- A thruster whose torque direction `position × direction = (0, 0, -1)`
opposes the bank's total momentum with alignment 1. -/
noncomputable def stuckThruster : DesatThruster := ⟨⟨0, 1, 0⟩, ⟨1, 0, 0⟩, 50⟩

theorem stuck_total_momentum : rwTotalMomentum stuckWheels = ⟨0, 0, 0.1⟩ := by
  simp only [rwTotalMomentum, stuckWheels, List.foldl, Vec3.add, Vec3.scale]
  norm_num

/-- Counterexample to claim C7: this reaction-wheel bank starts with peak
momentum magnitude `0.55` above the deactivation threshold, and the
thruster opposes the total momentum with alignment `1 > 0.5` — the claim's
premises hold — yet the desaturation operation is a fixed point here (the
total momentum `0.1` is not above the firing threshold), so repeated
invocation never reduces the peak below `0.5` and never clears
`desaturationActive`. -/
theorem C7_counterexample_desaturation_stalls :
    (0.5 : ℝ) <
      stuckWheels.foldl (fun m w => max m |w.currentAngularMomentum|) 0 ∧
    (0.5 : ℝ) < (stuckThruster.pos.cross stuckThruster.dir).dot
      ((rwTotalMomentum stuckWheels).unit.scale (-1)) ∧
    desaturateRW [stuckThruster] stuckWheels = (stuckWheels, true) := by
  have hlen : (rwTotalMomentum stuckWheels).len = 0.1 := by
    rw [stuck_total_momentum, Vec3.len_single_z]
    norm_num
  have hunit : (rwTotalMomentum stuckWheels).unit = ⟨0, 0, 1⟩ := by
    rw [Vec3.unit, if_pos (by rw [hlen]; norm_num), hlen, stuck_total_momentum]
    simp only [Vec3.scale]
    norm_num
  have hpeak : stuckWheels.foldl (fun m w => max m |w.currentAngularMomentum|) 0
      = 0.55 := by
    simp only [stuckWheels, List.foldl]
    rw [show |(0.55:ℝ)| = 0.55 by rw [abs_of_pos]; norm_num,
        show |(-0.45:ℝ)| = 0.45 by rw [abs_of_neg] <;> norm_num]
    rw [max_eq_right (by norm_num : (0:ℝ) ≤ 0.55),
        max_eq_left (by norm_num : (0.45:ℝ) ≤ 0.55)]
  refine ⟨by rw [hpeak]; norm_num, ?_, ?_⟩
  · rw [hunit]
    simp only [stuckThruster, Vec3.cross, Vec3.dot, Vec3.scale]
    norm_num
  · simp only [desaturateRW]
    rw [if_neg (by rw [hlen]; norm_num)]
    rw [hpeak, if_neg (by norm_num)]

theorem Vec3.zero_add (v : Vec3) : Vec3.add ⟨0, 0, 0⟩ v = v := by
  cases v
  simp [Vec3.add]

theorem Vec3.scale_scale (v : Vec3) (a b : ℝ) :
    (v.scale a).scale b = v.scale (a * b) := by
  cases v
  simp only [Vec3.scale, Vec3.mk.injEq]
  refine ⟨by ring, by ring, by ring⟩

theorem Vec3.scale_one (v : Vec3) : v.scale 1 = v := by
  cases v
  simp [Vec3.scale]

theorem desaturateRW_single_step (o p pos d : Vec3) (M mt c thr : ℝ)
    (ho : o.len = 1)
    (hal : 0.5 < (pos.cross d).dot (o.scale (-1)))
    (hal2 : (pos.cross d).dot (o.scale (-1)) < 100)
    (hc : 0.5 ≤ c) (hcM : c ≤ M) :
    desaturateRW [⟨pos, d, thr⟩] [⟨o, p, M, mt, c⟩] =
      ([⟨o, p, M, mt, c - (pos.cross d).dot (o.scale (-1)) * 0.01⟩],
       if |c - (pos.cross d).dot (o.scale (-1)) * 0.01| < 0.5 then false
       else true) := by
  have hal0 : (0:ℝ) < (pos.cross d).dot (o.scale (-1)) := by linarith
  have hd0 : (0:ℝ) < (pos.cross d).dot (o.scale (-1)) * 0.01 := by nlinarith
  have hd1 : (pos.cross d).dot (o.scale (-1)) * 0.01 < 1 := by nlinarith
  have hc0 : (0:ℝ) < c := by linarith
  have hM : (0.5:ℝ) ≤ M := le_trans hc hcM
  have htot : rwTotalMomentum [⟨o, p, M, mt, c⟩] = o.scale c := by
    simp only [rwTotalMomentum, List.foldl]
    exact Vec3.zero_add _
  have hlen : (rwTotalMomentum [⟨o, p, M, mt, c⟩]).len = c := by
    rw [htot, Vec3.len_scale, ho, mul_one, abs_of_pos hc0]
  have hunit : (rwTotalMomentum [⟨o, p, M, mt, c⟩]).unit = o := by
    rw [Vec3.unit, hlen, if_pos hc0, htot, Vec3.scale_scale]
    rw [show c * (1 / c) = 1 from by field_simp, Vec3.scale_one]
  simp only [desaturateRW]
  rw [hlen, if_pos (by linarith : (0.1:ℝ) < c), hunit]
  simp only [List.foldl, desatRWThrusterPass]
  rw [if_pos (by exact hal)]
  simp only [List.map, desatReduceWheel]
  have e1 : (o.scale ((pos.cross d).dot (o.scale (-1)) * 0.01)).len =
      (pos.cross d).dot (o.scale (-1)) * 0.01 := by
    rw [Vec3.len_scale, ho, mul_one, abs_of_pos hd0]
  simp only [e1]
  simp only [min_eq_right
    (by linarith : c - (pos.cross d).dot (o.scale (-1)) * 0.01 ≤ M)]
  simp only [max_eq_right
    (by linarith : -M ≤ c - (pos.cross d).dot (o.scale (-1)) * 0.01)]
  simp only [List.foldl]
  simp only [max_eq_right
    (abs_nonneg (c - (pos.cross d).dot (o.scale (-1)) * 0.01))]

theorem desatWheelsIter_closed (o p pos d : Vec3) (M mt c thr : ℝ)
    (ho : o.len = 1)
    (hal : 0.5 < (pos.cross d).dot (o.scale (-1)))
    (hal2 : (pos.cross d).dot (o.scale (-1)) < 100)
    (hcM : c ≤ M) :
    ∀ k : ℕ, (∀ j : ℕ, j < k →
        0.5 ≤ c - j * ((pos.cross d).dot (o.scale (-1)) * 0.01)) →
      desatWheelsIter [⟨pos, d, thr⟩] [⟨o, p, M, mt, c⟩] k =
        [⟨o, p, M, mt, c - k * ((pos.cross d).dot (o.scale (-1)) * 0.01)⟩] := by
  have hd0 : (0:ℝ) < (pos.cross d).dot (o.scale (-1)) * 0.01 := by nlinarith
  intro k
  induction k with
  | zero =>
    intro _
    show [(⟨o, p, M, mt, c⟩ : ReactionWheel)] = _
    rw [Nat.cast_zero, zero_mul, sub_zero]
  | succ k ih =>
    intro hj
    have hck : 0.5 ≤ c - k * ((pos.cross d).dot (o.scale (-1)) * 0.01) :=
      hj k (Nat.lt_succ_self k)
    have hiter := ih (fun j hjk => hj j (Nat.lt_succ_of_lt hjk))
    show (desaturateRW [⟨pos, d, thr⟩]
        (desatWheelsIter [⟨pos, d, thr⟩] [⟨o, p, M, mt, c⟩] k)).1 = _
    rw [hiter]
    have hkM : c - k * ((pos.cross d).dot (o.scale (-1)) * 0.01) ≤ M := by
      have : (0:ℝ) ≤ k * ((pos.cross d).dot (o.scale (-1)) * 0.01) :=
        mul_nonneg (Nat.cast_nonneg k) hd0.le
      linarith
    rw [desaturateRW_single_step o p pos d M mt _ thr ho hal hal2 hck hkM]
    dsimp only
    congr 1
    push_cast
    ring_nf

/-- Claim C7, amended: for a bank of ONE reaction wheel (unit spin axis,
momentum `c` with `0.5 ≤ c ≤ maxAngularMomentum`) and one thruster whose
torque direction has alignment `a` with the direction opposing the wheel's
momentum, `0.5 < a < 100`, each desaturation call reduces the wheel
momentum by exactly `a * 0.01`; the peak momentum magnitude decreases
monotonically, stays at or above `0.5` through call number
`⌊(c - 0.5) / (a * 0.01)⌋`, and the very next call drops it strictly below
`0.5` and clears `desaturationActive`.  (The unrestricted multi-wheel
claim is refuted by the counterexample: wheels holding opposite momenta
can stall above the threshold.) -/
theorem C7_amended_single_wheel_convergence (o p pos d : Vec3)
    (M mt c thr : ℝ) (k : ℕ)
    (ho : o.len = 1)
    (hal : 0.5 < (pos.cross d).dot (o.scale (-1)))
    (hal2 : (pos.cross d).dot (o.scale (-1)) < 100)
    (hc : 0.5 ≤ c) (hcM : c ≤ M)
    (hk : k ≤ Nat.floor ((c - 0.5) / ((pos.cross d).dot (o.scale (-1)) * 0.01))) :
    (desatWheelsIter [⟨pos, d, thr⟩] [⟨o, p, M, mt, c⟩] k =
      [⟨o, p, M, mt, c - k * ((pos.cross d).dot (o.scale (-1)) * 0.01)⟩]) ∧
    (0.5 ≤ c - k * ((pos.cross d).dot (o.scale (-1)) * 0.01)) ∧
    (desaturateRW [⟨pos, d, thr⟩]
        (desatWheelsIter [⟨pos, d, thr⟩] [⟨o, p, M, mt, c⟩]
          (Nat.floor ((c - 0.5) / ((pos.cross d).dot (o.scale (-1)) * 0.01)))) =
      ([⟨o, p, M, mt, c -
          (Nat.floor ((c - 0.5) / ((pos.cross d).dot (o.scale (-1)) * 0.01)) + 1) *
            ((pos.cross d).dot (o.scale (-1)) * 0.01)⟩], false)) ∧
    (|c - (Nat.floor ((c - 0.5) / ((pos.cross d).dot (o.scale (-1)) * 0.01)) + 1) *
        ((pos.cross d).dot (o.scale (-1)) * 0.01)| < 0.5) := by
  set al := (pos.cross d).dot (o.scale (-1)) with hal_def
  have hd0 : (0:ℝ) < al * 0.01 := by nlinarith
  have hd1 : al * 0.01 < 1 := by nlinarith
  set r := (c - 0.5) / (al * 0.01) with hr_def
  have hr0 : 0 ≤ r := div_nonneg (by linarith) hd0.le
  have hmul : r * (al * 0.01) = c - 0.5 := by
    rw [hr_def]
    exact div_mul_cancel₀ _ hd0.ne'
  have hfl : (Nat.floor r : ℝ) * (al * 0.01) ≤ c - 0.5 := by
    have h1 : (Nat.floor r : ℝ) ≤ r := Nat.floor_le hr0
    have h2 := mul_le_mul_of_nonneg_right h1 hd0.le
    linarith
  have habove : ∀ j : ℕ, j ≤ Nat.floor r → 0.5 ≤ c - j * (al * 0.01) := by
    intro j hjm
    have h1 : (j:ℝ) * (al * 0.01) ≤ (Nat.floor r : ℝ) * (al * 0.01) :=
      mul_le_mul_of_nonneg_right (by exact_mod_cast hjm) hd0.le
    linarith
  have hclosed := desatWheelsIter_closed o p pos d M mt c thr ho hal hal2 hcM
  have hck : desatWheelsIter [⟨pos, d, thr⟩] [⟨o, p, M, mt, c⟩] k =
      [⟨o, p, M, mt, c - k * (al * 0.01)⟩] :=
    hclosed k (fun j hjk => habove j (le_trans (Nat.le_of_lt_succ
      (Nat.lt_succ_of_lt hjk)) hk))
  have hcm : desatWheelsIter [⟨pos, d, thr⟩] [⟨o, p, M, mt, c⟩] (Nat.floor r) =
      [⟨o, p, M, mt, c - (Nat.floor r) * (al * 0.01)⟩] :=
    hclosed (Nat.floor r) (fun j hjk => habove j (Nat.le_of_lt hjk))
  have hcmge : 0.5 ≤ c - (Nat.floor r) * (al * 0.01) :=
    habove (Nat.floor r) le_rfl
  have hcmM : c - (Nat.floor r) * (al * 0.01) ≤ M := by
    have : (0:ℝ) ≤ (Nat.floor r : ℝ) * (al * 0.01) :=
      mul_nonneg (Nat.cast_nonneg _) hd0.le
    linarith
  have hlt : c - ((Nat.floor r : ℝ) + 1) * (al * 0.01) < 0.5 := by
    have h1 : r < (Nat.floor r : ℝ) + 1 := Nat.lt_floor_add_one r
    have h2 := mul_lt_mul_of_pos_right h1 hd0
    linarith
  have habs : |c - ((Nat.floor r : ℝ) + 1) * (al * 0.01)| < 0.5 := by
    rw [abs_lt]
    constructor
    · have : ((Nat.floor r : ℝ) + 1) * (al * 0.01) =
          (Nat.floor r : ℝ) * (al * 0.01) + al * 0.01 := by ring
      rw [this]
      linarith
    · exact hlt
  refine ⟨hck, habove k hk, ?_, habs⟩
  rw [hcm, desaturateRW_single_step o p pos d M mt _ thr ho hal hal2 hcmge hcmM]
  have heq : c - (Nat.floor r : ℝ) * (al * 0.01) - al * 0.01 =
      c - ((Nat.floor r : ℝ) + 1) * (al * 0.01) := by ring
  rw [heq, if_pos habs]

theorem C7_amended_single_wheel_convergence_witness :
    (desatWheelsIter [⟨⟨0, 1, 0⟩, ⟨1, 0, 0⟩, 50⟩]
        [⟨⟨0, 0, 1⟩, ⟨0, 0, 0⟩, 10, 0.5, 0.6⟩] 0 =
      [⟨⟨0, 0, 1⟩, ⟨0, 0, 0⟩, 10, 0.5, 0.6 - (0:ℕ) *
        ((Vec3.cross ⟨0, 1, 0⟩ ⟨1, 0, 0⟩).dot (Vec3.scale ⟨0, 0, 1⟩ (-1)) * 0.01)⟩]) ∧
    ((0.5:ℝ) ≤ 0.6 - (0:ℕ) *
        ((Vec3.cross ⟨0, 1, 0⟩ ⟨1, 0, 0⟩).dot (Vec3.scale ⟨0, 0, 1⟩ (-1)) * 0.01)) ∧
    (desaturateRW [⟨⟨0, 1, 0⟩, ⟨1, 0, 0⟩, 50⟩]
        (desatWheelsIter [⟨⟨0, 1, 0⟩, ⟨1, 0, 0⟩, 50⟩]
          [⟨⟨0, 0, 1⟩, ⟨0, 0, 0⟩, 10, 0.5, 0.6⟩]
          (Nat.floor ((0.6 - 0.5) /
            ((Vec3.cross ⟨0, 1, 0⟩ ⟨1, 0, 0⟩).dot (Vec3.scale ⟨0, 0, 1⟩ (-1)) * 0.01)))) =
      ([⟨⟨0, 0, 1⟩, ⟨0, 0, 0⟩, 10, 0.5, 0.6 -
          (Nat.floor ((0.6 - 0.5) /
            ((Vec3.cross ⟨0, 1, 0⟩ ⟨1, 0, 0⟩).dot (Vec3.scale ⟨0, 0, 1⟩ (-1)) * 0.01)) + 1) *
            ((Vec3.cross ⟨0, 1, 0⟩ ⟨1, 0, 0⟩).dot (Vec3.scale ⟨0, 0, 1⟩ (-1)) * 0.01)⟩], false)) ∧
    (|(0.6:ℝ) - (Nat.floor ((0.6 - 0.5) /
        ((Vec3.cross ⟨0, 1, 0⟩ ⟨1, 0, 0⟩).dot (Vec3.scale ⟨0, 0, 1⟩ (-1)) * 0.01)) + 1) *
        ((Vec3.cross ⟨0, 1, 0⟩ ⟨1, 0, 0⟩).dot (Vec3.scale ⟨0, 0, 1⟩ (-1)) * 0.01)| < 0.5) :=
  C7_amended_single_wheel_convergence ⟨0, 0, 1⟩ ⟨0, 0, 0⟩ ⟨0, 1, 0⟩ ⟨1, 0, 0⟩
    10 0.5 0.6 50 0
    (by rw [Vec3.len_single_z]; norm_num)
    (by norm_num [Vec3.cross, Vec3.dot, Vec3.scale])
    (by norm_num [Vec3.cross, Vec3.dot, Vec3.scale])
    (by norm_num) (by norm_num) (Nat.zero_le _)

/-! ## Thruster channel auto-binding (thrusterSetup.js) -/

/-- The 12 control channels of `keyToThrusterIndices`:
`w s a d q e` (translation keys) and `i k j l u o` (rotation keys). -/
inductive ThrusterKey
  | w | s | a | d | q | e | i | k | j | l | u | o
deriving DecidableEq

/-- Embeds `keyToThrusterIndices`: every channel owns the ordered list of bound
thruster indices. -/
def KMap : Type := ThrusterKey → List ℕ

def emptyKMap : KMap := fun _ => []

/-- Embeds `keyToThrusterIndices[key].push(i)`. -/
def pushKey (m : KMap) (key : ThrusterKey) (idx : ℕ) : KMap :=
  fun q2 => if q2 = key then m q2 ++ [idx] else m q2

/-- Source constant `TRANSLATION_ANGLE_DEGREES = 90 - 25`. -/
noncomputable def TRANSLATION_ANGLE_DEGREES : ℝ := 90 - 25

/-- Source constant `TRANSLATION_TOLERANCE = Math.cos(TRANSLATION_ANGLE_DEGREES * π / 180)`. -/
noncomputable def TRANSLATION_TOLERANCE : ℝ :=
  Real.cos (TRANSLATION_ANGLE_DEGREES * Real.pi / 180)

/-- The auto-binding section of `processThrusterConfig` (lines 103-130),
as the ordered list of channel keys pushed for one thruster with adjusted
position `pos` and normalized direction `dir`. -/
noncomputable def autoBindKeys (pos dir : Vec3) : List ThrusterKey :=
  (if TRANSLATION_TOLERANCE < |dir.dot ⟨0, 0, 1⟩| then
    [if 0 < dir.z then ThrusterKey.w else ThrusterKey.s] else []) ++
  (if TRANSLATION_TOLERANCE < |dir.dot ⟨1, 0, 0⟩| then
    [if 0 < dir.x then ThrusterKey.a else ThrusterKey.d] else []) ++
  (if TRANSLATION_TOLERANCE < |dir.dot ⟨0, 1, 0⟩| then
    [if 0 < dir.y then ThrusterKey.e else ThrusterKey.q] else []) ++
  (let torque := pos.cross dir
   (if 0.025 < |torque.x| then
     [if 0 < torque.x then ThrusterKey.k else ThrusterKey.i] else []) ++
   (if 0.025 < |torque.y| then
     [if 0 < torque.y then ThrusterKey.j else ThrusterKey.l] else []) ++
   (if 0.025 < |torque.z| then
     [if 0 < torque.z then ThrusterKey.o else ThrusterKey.u] else []))

/-- The lookup `keyToThrusterIndices[normalizedKey]` on the manual
keybind path: only the 12 channel names exist. -/
def keyOfString (s : String) : Option ThrusterKey :=
  if s = "w" then some .w else if s = "s" then some .s
  else if s = "a" then some .a else if s = "d" then some .d
  else if s = "q" then some .q else if s = "e" then some .e
  else if s = "i" then some .i else if s = "k" then some .k
  else if s = "j" then some .j else if s = "l" then some .l
  else if s = "u" then some .u else if s = "o" then some .o
  else none

/-- One thruster record of the configuration, as consumed by the binding
logic: geometry, the `autoBind` flag (`t.autoBind !== false`) and the
manual `keybind` list. -/
structure ThrusterCfg where
  position : Vec3
  direction : Vec3
  autoBind : Bool
  keybind : List String

/-- The channel keys pushed for one configured thruster: auto-binding from
the geometry (position adjusted by the center-of-mass offset, direction
normalized), or the explicit keybind list (lower-cased, trimmed, unknown
names dropped). -/
noncomputable def thrusterBindKeys (com : Vec3) (cfg : ThrusterCfg) :
    List ThrusterKey :=
  let pos : Vec3 := ⟨cfg.position.x - com.x, cfg.position.y - com.y,
    cfg.position.z - com.z⟩
  let dir := cfg.direction.unit
  if cfg.autoBind then autoBindKeys pos dir
  else cfg.keybind.filterMap (fun s2 => keyOfString s2.toLower.trim)

/-- The whole binding pass of `processThrusterConfig` over the thruster
list, threading the mutable `keyToThrusterIndices` map and the running
thruster index. -/
noncomputable def bindThrusterChannels (com : Vec3) :
    List ThrusterCfg → ℕ → KMap → KMap
  | [], _, m => m
  | cfg :: rest, i2, m =>
      bindThrusterChannels com rest (i2 + 1)
        ((thrusterBindKeys com cfg).foldl (fun acc key => pushKey acc key i2) m)

theorem mem_ite_ite {α : Type} (P Q : Prop) [Decidable P] [Decidable Q]
    (x a b : α) :
    (x ∈ if P then [if Q then a else b] else []) ↔
      (P ∧ ((Q ∧ x = a) ∨ (¬Q ∧ x = b))) := by
  split
  · split <;> simp_all
  · simp_all

theorem TRANSLATION_TOLERANCE_pos : 0 < TRANSLATION_TOLERANCE := by
  unfold TRANSLATION_TOLERANCE TRANSLATION_ANGLE_DEGREES
  apply Real.cos_pos_of_mem_Ioo
  constructor
  · nlinarith [Real.pi_pos]
  · nlinarith [Real.pi_pos]

theorem TRANSLATION_TOLERANCE_lt_one : TRANSLATION_TOLERANCE < 1 := by
  unfold TRANSLATION_TOLERANCE TRANSLATION_ANGLE_DEGREES
  refine lt_of_le_of_ne (Real.cos_le_one _) (fun h => ?_)
  have h2 := (Real.cos_eq_one_iff_of_lt_of_lt
    (by nlinarith [Real.pi_pos] : -(2 * Real.pi) < (90 - 25) * Real.pi / 180)
    (by nlinarith [Real.pi_pos] : (90 - 25) * Real.pi / 180 < 2 * Real.pi)).mp h
  nlinarith [Real.pi_pos]

/-- Claim C8: under auto-binding, a thruster is bound to a translation
channel exactly when the absolute dot product of its unit direction with
the corresponding principal axis exceeds `TRANSLATION_TOLERANCE`
(`cos 65°`), with the channel picked by the sign of the direction
component (`dir.z > 0` gives the forward-push channel `w`, and
analogously for x and y); independently, with `torque = position ×
direction`, each torque component whose absolute value exceeds the
`0.025` deadband binds the rotation channel of that axis, picked by the
component's sign; and one thruster may receive both a translation and a
rotation binding (witnessed by `pos = (1,0,0)`, `dir = (0,0,1)`). -/
theorem C8_auto_binding_channels (pos dir : Vec3) :
    ((ThrusterKey.w ∈ autoBindKeys pos dir) ↔
      (TRANSLATION_TOLERANCE < |dir.dot ⟨0, 0, 1⟩| ∧ 0 < dir.z)) ∧
    ((ThrusterKey.s ∈ autoBindKeys pos dir) ↔
      (TRANSLATION_TOLERANCE < |dir.dot ⟨0, 0, 1⟩| ∧ ¬0 < dir.z)) ∧
    ((ThrusterKey.a ∈ autoBindKeys pos dir) ↔
      (TRANSLATION_TOLERANCE < |dir.dot ⟨1, 0, 0⟩| ∧ 0 < dir.x)) ∧
    ((ThrusterKey.d ∈ autoBindKeys pos dir) ↔
      (TRANSLATION_TOLERANCE < |dir.dot ⟨1, 0, 0⟩| ∧ ¬0 < dir.x)) ∧
    ((ThrusterKey.e ∈ autoBindKeys pos dir) ↔
      (TRANSLATION_TOLERANCE < |dir.dot ⟨0, 1, 0⟩| ∧ 0 < dir.y)) ∧
    ((ThrusterKey.q ∈ autoBindKeys pos dir) ↔
      (TRANSLATION_TOLERANCE < |dir.dot ⟨0, 1, 0⟩| ∧ ¬0 < dir.y)) ∧
    ((ThrusterKey.k ∈ autoBindKeys pos dir) ↔
      (0.025 < |(pos.cross dir).x| ∧ 0 < (pos.cross dir).x)) ∧
    ((ThrusterKey.i ∈ autoBindKeys pos dir) ↔
      (0.025 < |(pos.cross dir).x| ∧ ¬0 < (pos.cross dir).x)) ∧
    ((ThrusterKey.j ∈ autoBindKeys pos dir) ↔
      (0.025 < |(pos.cross dir).y| ∧ 0 < (pos.cross dir).y)) ∧
    ((ThrusterKey.l ∈ autoBindKeys pos dir) ↔
      (0.025 < |(pos.cross dir).y| ∧ ¬0 < (pos.cross dir).y)) ∧
    ((ThrusterKey.o ∈ autoBindKeys pos dir) ↔
      (0.025 < |(pos.cross dir).z| ∧ 0 < (pos.cross dir).z)) ∧
    ((ThrusterKey.u ∈ autoBindKeys pos dir) ↔
      (0.025 < |(pos.cross dir).z| ∧ ¬0 < (pos.cross dir).z)) ∧
    (ThrusterKey.w ∈ autoBindKeys ⟨1, 0, 0⟩ ⟨0, 0, 1⟩ ∧
     ThrusterKey.l ∈ autoBindKeys ⟨1, 0, 0⟩ ⟨0, 0, 1⟩) := by
  have hdual : ThrusterKey.w ∈ autoBindKeys ⟨1, 0, 0⟩ ⟨0, 0, 1⟩ ∧
      ThrusterKey.l ∈ autoBindKeys ⟨1, 0, 0⟩ ⟨0, 0, 1⟩ := by
    constructor <;>
    · simp only [autoBindKeys, List.mem_append, mem_ite_ite, Vec3.dot, Vec3.cross]
      norm_num [TRANSLATION_TOLERANCE_lt_one]
  refine ⟨?_, ?_, ?_, ?_, ?_, ?_, ?_, ?_, ?_, ?_, ?_, ?_, hdual⟩ <;>
  · simp only [autoBindKeys, List.mem_append, mem_ite_ite]
    simp

theorem foldl_pushKey_append (i2 : ℕ) :
    ∀ (keys : List ThrusterKey) (m : KMap) (key : ThrusterKey),
      (keys.foldl (fun acc k2 => pushKey acc k2 i2) m) key =
        m key ++ (keys.foldl (fun acc k2 => pushKey acc k2 i2) emptyKMap) key := by
  intro keys
  induction keys with
  | nil =>
    intro m key
    simp [emptyKMap]
  | cons k2 rest ih =>
    intro m key
    show (rest.foldl (fun acc k3 => pushKey acc k3 i2) (pushKey m k2 i2)) key = _
    rw [ih (pushKey m k2 i2) key]
    have hr : (List.foldl (fun acc k3 => pushKey acc k3 i2) emptyKMap (k2 :: rest)) key =
        (pushKey emptyKMap k2 i2) key ++
          (rest.foldl (fun acc k3 => pushKey acc k3 i2) emptyKMap) key := by
      show (rest.foldl (fun acc k3 => pushKey acc k3 i2) (pushKey emptyKMap k2 i2)) key = _
      rw [ih (pushKey emptyKMap k2 i2) key]
    rw [hr]
    have hp : (pushKey m k2 i2) key = m key ++ (pushKey emptyKMap k2 i2) key := by
      unfold pushKey emptyKMap
      split <;> simp
    rw [hp, List.append_assoc]

theorem bindThrusterChannels_append (com : Vec3) :
    ∀ (cfgs : List ThrusterCfg) (i2 : ℕ) (m : KMap) (key : ThrusterKey),
      bindThrusterChannels com cfgs i2 m key =
        m key ++ bindThrusterChannels com cfgs i2 emptyKMap key := by
  intro cfgs
  induction cfgs with
  | nil =>
    intro i2 m key
    simp [bindThrusterChannels, emptyKMap]
  | cons cfg rest ih =>
    intro i2 m key
    show bindThrusterChannels com rest (i2 + 1)
        ((thrusterBindKeys com cfg).foldl (fun acc k2 => pushKey acc k2 i2) m) key = _
    rw [ih (i2 + 1) _ key, foldl_pushKey_append i2 (thrusterBindKeys com cfg) m key]
    have hr : bindThrusterChannels com (cfg :: rest) i2 emptyKMap key =
        ((thrusterBindKeys com cfg).foldl (fun acc k2 => pushKey acc k2 i2) emptyKMap) key ++
          bindThrusterChannels com rest (i2 + 1) emptyKMap key := by
      show bindThrusterChannels com rest (i2 + 1)
          ((thrusterBindKeys com cfg).foldl (fun acc k2 => pushKey acc k2 i2) emptyKMap) key = _
      rw [ih (i2 + 1) _ key]
    rw [hr, List.append_assoc]

/-- Claim C9: the channel-binding pass appends, to any incoming map, a
channel-to-thruster-index assignment that is a pure function of the
thruster configuration alone (binding determinism), and consequently the
SET of (channel, index) assignments is invariant under repeated
invocation against the same map: re-running the binding only appends a
second copy of the same pairs. -/
theorem C9_binding_deterministic (com : Vec3) (cfgs : List ThrusterCfg)
    (i2 : ℕ) (m : KMap) (key : ThrusterKey) (idx : ℕ) :
    (bindThrusterChannels com cfgs i2 m key =
      m key ++ bindThrusterChannels com cfgs i2 emptyKMap key) ∧
    (idx ∈ bindThrusterChannels com cfgs i2
        (bindThrusterChannels com cfgs i2 emptyKMap) key ↔
      idx ∈ bindThrusterChannels com cfgs i2 emptyKMap key) := by
  refine ⟨bindThrusterChannels_append com cfgs i2 m key, ?_⟩
  rw [bindThrusterChannels_append com cfgs i2
    (bindThrusterChannels com cfgs i2 emptyKMap) key]
  simp [List.mem_append]

/-! ## Configuration parsing semantics (attitudeControl.js)

JavaScript values as seen by `parseFloat` and the nullish-coalescing
operator.  A JS number is `num q` with `q = none` standing for `NaN`
(not representable in `ℚ`); `nonNumericStr` stands for a string without a
numeric prefix, so that `parseFloat` of it is `NaN`.  Strings with a
numeric prefix behave like the number they parse to and are subsumed by
`num`. -/

inductive JSVal
  | undef
  | jsNull
  | num (q : Option ℚ)
  | nonNumericStr (s : String)
deriving DecidableEq

/-- Embeds `parseFloat`: it always returns a number, with `NaN` on `undefined`, `null`
and non-numeric strings, and the value itself on numbers. -/
def parseFloatJS : JSVal → JSVal
  | .num q => .num q
  | _ => .num none

/-- The `??` (nullish-coalescing) operator: the default applies only to
`undefined` and `null`. -/
def nullish (x dflt : JSVal) : JSVal :=
  match x with
  | .undef => dflt
  | .jsNull => dflt
  | v => v

/-- One reaction-wheel configuration entry as read by
`processReactionWheelsConfig`: a missing property access (such as
`wheelConfig.orientation?.x` with no orientation, or a missing
`maxAngularMomentum`) yields `undefined`. -/
structure WheelCfgJS where
  orientationX : JSVal
  orientationY : JSVal
  orientationZ : JSVal
  maxAngularMomentum : JSVal
  maxTorque : JSVal
deriving DecidableEq

/-- The parsed numeric fields of a wheel entry (lines 92-111): the raw
orientation components `parseFloat(orientation?.c) ?? dflt` and the limits
`parseFloat(maxAngularMomentum) ?? 10`, `parseFloat(maxTorque) ?? 0.5`. -/
def processWheelEntry (cfg : WheelCfgJS) : JSVal × JSVal × JSVal × JSVal × JSVal :=
  (nullish (parseFloatJS cfg.orientationX) (.num (some 0)),
   nullish (parseFloatJS cfg.orientationY) (.num (some 0)),
   nullish (parseFloatJS cfg.orientationZ) (.num (some 1)),
   nullish (parseFloatJS cfg.maxAngularMomentum) (.num (some 10)),
   nullish (parseFloatJS cfg.maxTorque) (.num (some 0.5)))

structure CMGCfgJS where
  maxAngularMomentum : JSVal
  maxTorque : JSVal
deriving DecidableEq

/-- The parsed limits of a CMG entry (lines 136-143):
`parseFloat(maxAngularMomentum) ?? 200` and `parseFloat(maxTorque) ?? 5`. -/
def processCMGEntry (cfg : CMGCfgJS) : JSVal × JSVal :=
  (nullish (parseFloatJS cfg.maxAngularMomentum) (.num (some 200)),
   nullish (parseFloatJS cfg.maxTorque) (.num (some 5)))

/-- Claim C10: `parseFloat` never returns `null` or `undefined`, so the
`??` fallbacks written after it are unreachable; a wheel entry that omits
`maxAngularMomentum` or `maxTorque` (or supplies a non-numeric string)
stores `NaN` rather than the defaults 10 and 0.5, a CMG entry missing its
limits stores `NaN` rather than 200 and 5, and missing or non-numeric
orientation components parse to `NaN` rather than the 0/0/1 defaults. -/
theorem C10_parseFloat_nullish_defaults_unreachable :
    (∀ (v dflt : JSVal), nullish (parseFloatJS v) dflt = parseFloatJS v) ∧
    (processWheelEntry ⟨.undef, .undef, .undef, .undef, .undef⟩ =
      (.num none, .num none, .num none, .num none, .num none)) ∧
    (processWheelEntry ⟨.nonNumericStr "x", .undef, .undef,
        .nonNumericStr "n/a", .undef⟩ =
      (.num none, .num none, .num none, .num none, .num none)) ∧
    ((processWheelEntry ⟨.undef, .undef, .undef, .undef, .undef⟩).2.2.2.1 ≠
      JSVal.num (some 10)) ∧
    ((processWheelEntry ⟨.undef, .undef, .undef, .undef, .undef⟩).2.2.2.2 ≠
      JSVal.num (some 0.5)) ∧
    ((processWheelEntry ⟨.undef, .undef, .undef, .undef, .undef⟩).2.2.1 ≠
      JSVal.num (some 1)) ∧
    (processCMGEntry ⟨.undef, .undef⟩ = (.num none, .num none)) ∧
    ((processCMGEntry ⟨.undef, .undef⟩).1 ≠ JSVal.num (some 200)) ∧
    ((processCMGEntry ⟨.undef, .undef⟩).2 ≠ JSVal.num (some 5)) := by
  refine ⟨fun v dflt => ?_, by decide, by decide, by decide, by decide,
    by decide, by decide, by decide, by decide⟩
  cases v <;> rfl
